import Mathlib

/-!
Verification of the taskbit workspace synchronization core.

Shallow embedding of:
 - the document model (`src/types/workspace.ts`),
 - the local-change tracker (`src/hooks/useRealtimeWorkspace.ts`),
 - the optimistic mutation engine (`src/hooks/useWorkspace.ts`), modelled as
   an effect-trace semantics: each mutator produces the ordered list of
   side effects (remote writes, local state updates, markers, logs, toasts)
   that the original code performs, branching on the success of the remote
   persistence step,
 - the undo/redo history engine (`useUndoRedo`).
-/

namespace Taskbit

/-! ## Document model (src/types/workspace.ts) -/

/-- The closed set of block type variants. -/
inductive BlockType
  | text
  | heading1
  | heading2
  | heading3
  | checklist
  | divider
deriving DecidableEq, Repr

/-- A content block. `checked` is optional (only meaningful for checklists). -/
structure Block where
  id : String
  type : BlockType
  content : String
  checked : Option Bool
deriving DecidableEq, Repr

/-- A page: ordered blocks plus metadata. Timestamps are integers (epoch ms). -/
structure Page where
  id : String
  title : String
  icon : String
  blocks : List Block
  createdAt : Int
  updatedAt : Int
deriving DecidableEq, Repr

/-! ## Local-change tracker (useRealtimeWorkspace.ts, lines 43-63)

`lastLocalChangeRef` holds at most one marker `{table, id, timestamp}`. -/

/-- The single-slot marker record stored in `lastLocalChangeRef`. -/
structure LocalMark where
  table : String
  id : String
  timestamp : Int
deriving DecidableEq, Repr

/-- The tracker state: `lastLocalChangeRef.current`, `null` or one marker. -/
abbrev TrackerState := Option LocalMark

/-- `markLocalChange(table, id)`: unconditionally overwrite the single slot
with a fresh marker stamped at the current time. -/
def markLocalChange (table id : String) (now : Int) (_st : TrackerState) : TrackerState :=
  some ⟨table, id, now⟩

/-- `isLocalChange(table, id)` evaluated at time `now`: returns the boolean
result together with the tracker state after the call.  The marker matches
when it targets the same table and id and is younger than 2000ms; a match
consumes the marker (slot reset to `none`); a miss leaves the slot as is. -/
def isLocalChange (table id : String) (now : Int) (st : TrackerState) : Bool × TrackerState :=
  match st with
  | none => (false, none)
  | some l =>
    if now - l.timestamp < 2000 ∧ l.table = table ∧ l.id = id then
      (true, none)
    else
      (false, some l)

/-- One tracker interaction: either a `markLocalChange` call or an
`isLocalChange` query (as triggered by an arriving realtime event),
each stamped with the wall-clock time at which it runs. -/
inductive TrackerOp
  | mark (table id : String) (time : Int)
  | query (table id : String) (time : Int)
deriving DecidableEq, Repr

/-- Is this op a query? -/
def TrackerOp.isQuery : TrackerOp → Bool
  | .query _ _ _ => true
  | .mark _ _ _ => false

/-- Run a list of tracker interactions, collecting the result of every
`isLocalChange` query in order. -/
def runTracker : List TrackerOp → TrackerState → TrackerState × List Bool
  | [], st => (st, [])
  | .mark t i time :: rest, st =>
      runTracker rest (markLocalChange t i time st)
  | .query t i time :: rest, st =>
      let q := isLocalChange t i time st
      let r := runTracker rest q.2
      (r.1, q.1 :: r.2)

/-- Does this query op match a marker `(t, i, ts)` (same table, same id,
arrival within the 2000ms window)?  `mark` ops never match. -/
def queryMatches (t i : String) (ts : Int) : TrackerOp → Bool
  | .query t' i' tm => decide (t' = t ∧ i' = i ∧ tm - ts < 2000)
  | .mark _ _ _ => false

/-- The expected result pattern for a run of queries against a single live
marker: `false` until the first matching query, `true` there, `false` ever
after (the marker is consumed by the first match). -/
def firstMatchPattern (p : TrackerOp → Bool) : List TrackerOp → List Bool
  | [] => []
  | q :: rest =>
    if p q then true :: List.replicate rest.length false
    else false :: firstMatchPattern p rest

/-! ## Optimistic mutation engine (useWorkspace.ts)

Each mutator is modelled as a function from its inputs (the authenticated
user, the current in-memory `Page[]`, call arguments, the ids the
persistence layer would assign, the current time, and the success of each
remote call) to the ordered list of side effects the original code performs,
plus its return value. -/

/-- One row of the batch upsert issued by `reorderBlocks`. -/
structure UpsertRow where
  id : String
  position : Nat
  pageId : String
  userId : String
  type : BlockType
  content : String
  checked : Option Bool
  updatedAt : Int
deriving DecidableEq, Repr

/-- A remote persistence operation (Supabase call). -/
inductive RemoteOp
  | insertPage (userId title icon : String) (position : Nat)
  | insertBlock (pageId userId : String) (type : BlockType) (content : String)
      (checked : Option Bool) (position : Nat)
  | updatePage (pageId userId : String) (title icon : Option String) (updatedAt : Int)
  | deletePageRow (pageId userId : String)
  | updateBlockRow (blockId userId : String) (content : Option String)
      (type : Option BlockType) (checked : Option Bool) (updatedAt : Int)
  | deleteBlockRow (blockId userId : String)
  | upsertBlocks (rows : List UpsertRow)
deriving DecidableEq, Repr

/-- One side effect performed by a mutator, in program order. -/
inductive Eff
  | remote (op : RemoteOp)
  | mark (table id : String)
  | setPages (pages : List Page)
  | setActive (pageId : Option String)
  | logError (msg : String)
  | toastError (title : String)
deriving DecidableEq, Repr

/-- The partial update argument of `updateBlock` (`Partial<Block>`): absent
fields are `none` and are neither applied locally nor written remotely. -/
structure BlockUpdates where
  content : Option String
  type : Option BlockType
  checked : Option Bool
deriving DecidableEq, Repr

/-- The spread `{ ...b, ...updates }`: fields present in `updates` win. -/
def applyBlockUpdates (b : Block) (u : BlockUpdates) : Block :=
  { b with
    content := u.content.getD b.content
    type := u.type.getD b.type
    checked := match u.checked with
      | some c => some c
      | none => b.checked }

/-- `createPage` (useWorkspace.ts lines 309-374).  The page row is inserted
remotely first; only when both inserts succeed is local state updated.
`pageOk` / `blockOk` are the outcomes of the two remote inserts, and
`newPageId` / `newBlockId` the ids the persistence layer assigns. -/
def createPage (user : Option String) (pages : List Page) (newPageId newBlockId : String)
    (createdAt : Int) (pageOk blockOk : Bool) : List Eff × Option Page :=
  match user with
  | none => ([], none)
  | some uid =>
    let position := pages.length
    let pageInsert : RemoteOp := .insertPage uid "Untitled" "📄" position
    if pageOk then
      let blockInsert : RemoteOp := .insertBlock newPageId uid .heading1 "" none 0
      if blockOk then
        let newPage : Page :=
          { id := newPageId, title := "Untitled", icon := "📄"
            blocks := [{ id := newBlockId, type := .heading1, content := "", checked := none }]
            createdAt := createdAt, updatedAt := createdAt }
        ([.remote pageInsert, .mark "pages" newPageId, .remote blockInsert,
          .mark "blocks" newBlockId, .setPages (pages ++ [newPage]),
          .setActive (some newPageId)], some newPage)
      else
        ([.remote pageInsert, .mark "pages" newPageId, .remote blockInsert,
          .logError "Error creating page", .toastError "Error creating page"], none)
    else
      ([.remote pageInsert, .logError "Error creating page",
        .toastError "Error creating page"], none)

/-- `deletePage` (useWorkspace.ts lines 376-407).  Marks, then issues the
remote delete; local state is updated only after the delete succeeds, at
which point the active page is moved off the deleted one. -/
def deletePage (user : Option String) (pages : List Page) (activePageId : Option String)
    (pageId : String) (remoteOk : Bool) : List Eff :=
  match user with
  | none => []
  | some uid =>
    if remoteOk then
      let filtered := pages.filter fun p => decide (p.id ≠ pageId)
      let activeEffs : List Eff :=
        match filtered with
        | f :: _ =>
          if activePageId = some pageId then [.setActive (some f.id)] else []
        | [] => [.setActive none]
      [.mark "pages" pageId, .remote (.deletePageRow pageId uid),
        .setPages filtered] ++ activeEffs
    else
      [.mark "pages" pageId, .remote (.deletePageRow pageId uid),
        .logError "Error deleting page", .toastError "Error deleting page"]

/-- `updatePageTitle` (useWorkspace.ts lines 409-429).  Optimistic local
update, mark, then the remote update; a remote failure is only logged. -/
def updatePageTitle (user : Option String) (pages : List Page) (pageId title : String)
    (now : Int) (remoteOk : Bool) : List Eff :=
  match user with
  | none => []
  | some uid =>
    let optimistic := pages.map fun p =>
      if p.id = pageId then { p with title := title, updatedAt := now } else p
    [.setPages optimistic, .mark "pages" pageId,
      .remote (.updatePage pageId uid (some title) none now)] ++
    (if remoteOk then [] else [.logError "Error updating page title"])

/-- `updatePageIcon` (useWorkspace.ts lines 431-451). -/
def updatePageIcon (user : Option String) (pages : List Page) (pageId icon : String)
    (now : Int) (remoteOk : Bool) : List Eff :=
  match user with
  | none => []
  | some uid =>
    let optimistic := pages.map fun p =>
      if p.id = pageId then { p with icon := icon, updatedAt := now } else p
    [.setPages optimistic, .mark "pages" pageId,
      .remote (.updatePage pageId uid none (some icon) now)] ++
    (if remoteOk then [] else [.logError "Error updating page icon"])

/-- `addBlock` (useWorkspace.ts lines 453-516).  Preconditions: a user and a
locally-present target page.  The persisted position is the sibling's index
plus one when `afterBlockId` is found, else the block count.  The remote
insert is issued first; on success the block is spliced into local state at
`findIndex(afterBlockId) + 1` — which is index 0 when `afterBlockId` is given
but not found, since `findIndex` returns -1. -/
def addBlock (user : Option String) (pages : List Page) (pageId : String) (type : BlockType)
    (afterBlockId : Option String) (newId : String) (now : Int) (remoteOk : Bool) :
    List Eff × Option Block :=
  match user with
  | none => ([], none)
  | some uid =>
    match pages.find? (fun p => p.id = pageId) with
    | none => ([], none)
    | some page =>
      let position :=
        match afterBlockId with
        | none => page.blocks.length
        | some aid =>
          match page.blocks.findIdx? (fun b => b.id = aid) with
          | some idx => idx + 1
          | none => page.blocks.length
      let checkedInit : Option Bool := if type = .checklist then some false else none
      let insertOp : RemoteOp := .insertBlock pageId uid type "" checkedInit position
      if remoteOk then
        let newBlock : Block := { id := newId, type := type, content := "", checked := checkedInit }
        let optimistic := pages.map fun p =>
          if p.id = pageId then
            match afterBlockId with
            | none => { p with blocks := p.blocks ++ [newBlock], updatedAt := now }
            | some aid =>
              let spliceIdx :=
                match p.blocks.findIdx? (fun b => b.id = aid) with
                | some idx => idx + 1
                | none => 0
              { p with blocks := p.blocks.insertIdx spliceIdx newBlock, updatedAt := now }
          else p
        ([.remote insertOp, .mark "blocks" newId, .setPages optimistic], some newBlock)
      else
        ([.remote insertOp, .logError "Error adding block",
          .toastError "Error adding block"], none)

/-- `updateBlock` (useWorkspace.ts lines 518-550).  Optimistic partial merge,
mark, remote update of only the provided fields; a remote failure is only
logged — no toast. There is no existence check for the page or block. -/
def updateBlock (user : Option String) (pages : List Page) (pageId blockId : String)
    (updates : BlockUpdates) (now : Int) (remoteOk : Bool) : List Eff :=
  match user with
  | none => []
  | some uid =>
    let optimistic := pages.map fun p =>
      if p.id = pageId then
        { p with
          blocks := p.blocks.map fun b =>
            if b.id = blockId then applyBlockUpdates b updates else b
          updatedAt := now }
      else p
    [.setPages optimistic, .mark "blocks" blockId,
      .remote (.updateBlockRow blockId uid updates.content updates.type updates.checked now)] ++
    (if remoteOk then [] else [.logError "Error updating block"])

/-- `deleteBlock` (useWorkspace.ts lines 552-582).  Optimistic removal, mark,
remote delete; a remote failure is logged and toasted. -/
def deleteBlock (user : Option String) (pages : List Page) (pageId blockId : String)
    (now : Int) (remoteOk : Bool) : List Eff :=
  match user with
  | none => []
  | some uid =>
    let optimistic := pages.map fun p =>
      if p.id = pageId then
        { p with blocks := p.blocks.filter fun b => decide (b.id ≠ blockId), updatedAt := now }
      else p
    [.setPages optimistic, .mark "blocks" blockId,
      .remote (.deleteBlockRow blockId uid)] ++
    (if remoteOk then [] else [.logError "Error deleting block", .toastError "Error deleting block"])

/-- `reorderBlocks` (useWorkspace.ts lines 584-618).  Optimistic replacement
of the page's block list, then one batch upsert rewriting every block's
position to its index in the new order.  No local-change marker is recorded
and there is no page existence check. -/
def reorderBlocks (user : Option String) (pages : List Page) (pageId : String)
    (reorderedBlocks : List Block) (now : Int) (remoteOk : Bool) : List Eff :=
  match user with
  | none => []
  | some uid =>
    let optimistic := pages.map fun p =>
      if p.id = pageId then { p with blocks := reorderedBlocks, updatedAt := now } else p
    let rows := reorderedBlocks.mapIdx fun index block =>
      ({ id := block.id, position := index, pageId := pageId, userId := uid
         type := block.type, content := block.content, checked := block.checked
         updatedAt := now } : UpsertRow)
    [.setPages optimistic, .remote (.upsertBlocks rows)] ++
    (if remoteOk then [] else [.logError "Error reordering blocks",
      .toastError "Error reordering blocks"])

/-! ### Observations over effect traces -/

/-- Is this effect a remote persistence call? -/
def Eff.isRemote : Eff → Bool
  | .remote _ => true
  | _ => false

/-- Is this effect a local `setPages` state update? -/
def Eff.isSetPages : Eff → Bool
  | .setPages _ => true
  | _ => false

/-- The user-visible toast notifications of a trace, in order. -/
def toastsOf (effs : List Eff) : List String :=
  effs.filterMap fun e =>
    match e with
    | .toastError t => some t
    | _ => none

/-- The remote persistence operations of a trace, in order. -/
def remotesOf (effs : List Eff) : List RemoteOp :=
  effs.filterMap fun e =>
    match e with
    | .remote op => some op
    | _ => none

/-- Replay the local-state effects of a trace over a `(pages, activePageId)`
pair (remote, marker, log and toast effects do not touch local state). -/
def applyEff (st : List Page × Option String) (e : Eff) : List Page × Option String :=
  match e with
  | .setPages ps => (ps, st.2)
  | .setActive a => (st.1, a)
  | _ => st

/-- The local `(pages, activePageId)` state after running a whole trace. -/
def localStateAfter (effs : List Eff) (pages : List Page) (active : Option String) :
    List Page × Option String :=
  effs.foldl applyEff (pages, active)

/-- The claimed C1 ordering: the local state update strictly precedes the
first remote write in the trace. -/
def appliesLocalBeforeRemote (effs : List Eff) : Bool :=
  match effs.findIdx? Eff.isSetPages, effs.findIdx? Eff.isRemote with
  | some i, some j => decide (i < j)
  | _, _ => false

/-- Remote-first ordering: the first remote write precedes any local state
update, and a trace with no local update at all (the failure path) counts. -/
def remoteIssuedBeforeLocalApply (effs : List Eff) : Bool :=
  match effs.findIdx? Eff.isRemote, effs.findIdx? Eff.isSetPages with
  | some j, some i => decide (j < i)
  | some _, none => true
  | none, _ => false

/-! ## Remote change reconciliation (useWorkspace.ts, handlePageChange) -/

/-- The kind of row-change event delivered by the realtime feed. -/
inductive ChangeType
  | INSERT
  | UPDATE
  | DELETE
deriving DecidableEq, Repr

/-- The partial page payload of a feed event (`Partial<Page> & {id}`):
the id is always present, other fields only when the feed supplies them
(blocks are never supplied). -/
structure PageDelta where
  id : String
  title : Option String
  icon : Option String
  createdAt : Option Int
  updatedAt : Option Int
deriving DecidableEq, Repr

/-- The spread `{ ...p, ...change.page }` for the fields a page event can
carry. -/
def mergePageDelta (p : Page) (pp : PageDelta) : Page :=
  { p with
    id := pp.id
    title := pp.title.getD p.title
    icon := pp.icon.getD p.icon
    createdAt := pp.createdAt.getD p.createdAt
    updatedAt := pp.updatedAt.getD p.updatedAt }

/-- `handlePageChange` (useWorkspace.ts lines 63-90): the state update applied
to the previous `Page[]` when a page feed event arrives.  DELETE filters the
page out; INSERT returns the previous collection unchanged whether or not the
page is already present (the full page data would need a fetch); UPDATE
merges the payload into the matching page. -/
def handlePageChange (ctype : ChangeType) (pp : PageDelta) (prev : List Page) : List Page :=
  match ctype with
  | .DELETE => prev.filter fun p => decide (p.id ≠ pp.id)
  | .INSERT =>
    if prev.any fun p => p.id = pp.id then prev
    else prev
  | .UPDATE => prev.map fun p => if p.id = pp.id then mergePageDelta p pp else p

/-! ## Undo/redo history engine (useUndoRedo) -/

/-- One history entry: a full snapshot plus its timestamp. -/
structure HistoryEntry (T : Type) where
  state : T
  timestamp : Int
deriving DecidableEq, Repr

/-- The hook's state: the bounded snapshot list, the cursor, and the
`isUndoRedoRef` suppression flag. -/
structure UndoRedoState (T : Type) where
  history : List (HistoryEntry T)
  currentIndex : Nat
  isUndoRedo : Bool
deriving DecidableEq, Repr

/-- The initial hook state: a single entry holding the initial snapshot. -/
def initUndoRedo {T : Type} (s : T) (t : Int) : UndoRedoState T :=
  ⟨[⟨s, t⟩], 0, false⟩

/-- `pushState(newState)`: a push right after an undo/redo only consumes the
suppression flag; otherwise future entries beyond the cursor are truncated,
the new snapshot is appended, the oldest entry is shifted out when the list
exceeds `maxHistory`, and the cursor advances (clamped to `maxHistory - 1`). -/
def pushState {T : Type} (maxHistory : Nat) (newState : T) (now : Int)
    (st : UndoRedoState T) : UndoRedoState T :=
  if st.isUndoRedo then { st with isUndoRedo := false }
  else
    let newHistory := st.history.take (st.currentIndex + 1) ++ [⟨newState, now⟩]
    let limited := if maxHistory < newHistory.length then newHistory.drop 1 else newHistory
    { history := limited
      currentIndex := min (st.currentIndex + 1) (maxHistory - 1)
      isUndoRedo := st.isUndoRedo }

/-- `undo()`: no-op returning null at the earliest entry; otherwise decrement
the cursor, set the suppression flag, and return the snapshot now at the
cursor. -/
def undo {T : Type} (st : UndoRedoState T) : UndoRedoState T × Option T :=
  if st.currentIndex = 0 then (st, none)
  else
    let newIndex := st.currentIndex - 1
    ({ st with currentIndex := newIndex, isUndoRedo := true },
      (st.history.get? newIndex).map (·.state))

/-- `redo()`: symmetric to `undo` at the latest entry. -/
def redo {T : Type} (st : UndoRedoState T) : UndoRedoState T × Option T :=
  if st.history.length - 1 ≤ st.currentIndex then (st, none)
  else
    let newIndex := st.currentIndex + 1
    ({ st with currentIndex := newIndex, isUndoRedo := true },
      (st.history.get? newIndex).map (·.state))

/-- `canUndo`. -/
def canUndo {T : Type} (st : UndoRedoState T) : Bool :=
  decide (0 < st.currentIndex)

/-- `canRedo`. -/
def canRedo {T : Type} (st : UndoRedoState T) : Bool :=
  decide (st.currentIndex < st.history.length - 1)

/-- `reset(newState)`: fresh single-entry history and cursor 0; the
suppression ref is left untouched. -/
def reset {T : Type} (newState : T) (now : Int) (st : UndoRedoState T) : UndoRedoState T :=
  ⟨[⟨newState, now⟩], 0, st.isUndoRedo⟩

/-- One call against the history engine. -/
inductive HistoryOp (T : Type)
  | push (x : T) (now : Int)
  | undoCall
  | redoCall
  | resetCall (x : T) (now : Int)
deriving DecidableEq, Repr

/-- Run a sequence of history-engine calls. -/
def runHistory {T : Type} (maxHistory : Nat) : List (HistoryOp T) → UndoRedoState T →
    UndoRedoState T
  | [], st => st
  | op :: rest, st =>
    let st' := match op with
      | .push x now => pushState maxHistory x now st
      | .undoCall => (undo st).1
      | .redoCall => (redo st).1
      | .resetCall x now => reset x now st
    runHistory maxHistory rest st'

/-- The structural invariant of the history engine: the snapshot list is
nonempty, never longer than the capacity, and the cursor points inside it. -/
def HistInv {T : Type} (cap : Nat) (st : UndoRedoState T) : Prop :=
  1 ≤ st.history.length ∧ st.history.length ≤ cap ∧ st.currentIndex < st.history.length

/-! ## Concrete fixtures used by witnesses and counterexamples -/

/-- A concrete text block. -/
def sampleBlock1 : Block := ⟨"b1", .text, "one", none⟩

/-- A concrete text block. -/
def sampleBlock2 : Block := ⟨"b2", .text, "two", none⟩

/-- A concrete text block. -/
def sampleBlock3 : Block := ⟨"b3", .text, "three", none⟩

/-- A concrete page holding the three sample blocks in order. -/
def samplePage1 : Page := ⟨"p1", "Page one", "📄", [sampleBlock1, sampleBlock2, sampleBlock3], 0, 0⟩

/-- A one-page workspace. -/
def samplePages : List Page := [samplePage1]

/-- A page feed payload whose id is not in `samplePages`. -/
def sampleDelta : PageDelta := ⟨"p9", some "T", none, none, some 9⟩

/-- A partial block update setting only the content. -/
def sampleUpdates : BlockUpdates := ⟨some "A", none, none⟩

end Taskbit

namespace Taskbit

/-! ## Theorems about the local-change tracker -/

/-- Claim C3: a single `isLocalChange(collection, id)` call returns true iff a
marker exists for exactly the same `(collection, id)` pair and was recorded
within the last 2000ms; on true the marker is consumed (state becomes empty);
on false the tracker state is unchanged. -/
theorem isLocalChange_spec (table id : String) (now : Int) (st : TrackerState) :
    ((isLocalChange table id now st).1 = true ↔
      ∃ ts : Int, st = some ⟨table, id, ts⟩ ∧ now - ts < 2000) ∧
    ((isLocalChange table id now st).1 = true → (isLocalChange table id now st).2 = none) ∧
    ((isLocalChange table id now st).1 = false → (isLocalChange table id now st).2 = st) := by
  match st with
  | none =>
    refine ⟨?_, ?_, ?_⟩ <;> simp [isLocalChange]
  | some l =>
    by_cases h : now - l.timestamp < 2000 ∧ l.table = table ∧ l.id = id
    · refine ⟨?_, ?_, ?_⟩
      · simp only [isLocalChange, if_pos h, true_iff]
        exact ⟨l.timestamp, by cases l with
          | mk tb idf ts => simp_all, h.1⟩
      · intro _; simp [isLocalChange, if_pos h]
      · intro hfalse; simp [isLocalChange, if_pos h] at hfalse
    · refine ⟨?_, ?_, ?_⟩
      · simp only [isLocalChange, if_neg h, Bool.false_eq_true, false_iff, not_exists]
        rintro ts ⟨heq, hrec⟩
        cases Option.some_inj.mp heq
        exact h ⟨hrec, rfl, rfl⟩
      · intro htrue; simp [isLocalChange, if_neg h] at htrue
      · intro _; simp [isLocalChange, if_neg h]

/-- Witness for C3 at a concrete call: a marker for `("pages","A")` recorded
at time 0 and queried at time 100. -/
theorem isLocalChange_witness :
    (((isLocalChange "pages" "A" 100 (some ⟨"pages", "A", 0⟩)).1 = true ↔
      ∃ ts : Int, (some ⟨"pages", "A", 0⟩ : TrackerState) =
        some ⟨"pages", "A", ts⟩ ∧ (100 : Int) - ts < 2000) ∧
    ((isLocalChange "pages" "A" 100 (some ⟨"pages", "A", 0⟩)).1 = true →
      (isLocalChange "pages" "A" 100 (some ⟨"pages", "A", 0⟩)).2 = none) ∧
    ((isLocalChange "pages" "A" 100 (some ⟨"pages", "A", 0⟩)).1 = false →
      (isLocalChange "pages" "A" 100 (some ⟨"pages", "A", 0⟩)).2 =
        some ⟨"pages", "A", 0⟩)) :=
  isLocalChange_spec "pages" "A" 100 (some ⟨"pages", "A", 0⟩)

/-- Running a concatenated interaction list runs the two halves in sequence,
threading the tracker state and concatenating the query results. -/
theorem runTracker_append (a b : List TrackerOp) (st : TrackerState) :
    runTracker (a ++ b) st =
      ((runTracker b (runTracker a st).1).1,
        (runTracker a st).2 ++ (runTracker b (runTracker a st).1).2) := by
  induction a generalizing st with
  | nil => simp [runTracker]
  | cons op rest ih =>
    cases op with
    | mark t i time => simp [runTracker, ih]
    | query t i time => simp [runTracker, ih]

/-- With no marker in the slot, every query returns false and the slot stays
empty. -/
theorem runTracker_none_of_queries (qs : List TrackerOp)
    (hq : ∀ op ∈ qs, op.isQuery = true) :
    runTracker qs none = (none, List.replicate qs.length false) := by
  induction qs with
  | nil => simp [runTracker]
  | cons op rest ih =>
    cases op with
    | mark t i time =>
      have := hq _ (List.mem_cons_self _ _)
      simp [TrackerOp.isQuery] at this
    | query t i time =>
      have ihr := ih fun op hop => hq op (List.mem_cons_of_mem _ hop)
      simp [runTracker, isLocalChange, ihr, List.replicate_succ]

/-- With a single live marker `(t, i, ts)` in the slot, a run of queries
produces the first-match pattern: false before the first matching query,
true exactly there, false for every later query. -/
theorem runTracker_marker_firstMatch (t i : String) (ts : Int) (qs : List TrackerOp)
    (hq : ∀ op ∈ qs, op.isQuery = true) :
    (runTracker qs (some ⟨t, i, ts⟩)).2 = firstMatchPattern (queryMatches t i ts) qs := by
  induction qs with
  | nil => simp [runTracker, firstMatchPattern]
  | cons op rest ih =>
    cases op with
    | mark _ _ _ =>
      have := hq _ (List.mem_cons_self _ _)
      simp [TrackerOp.isQuery] at this
    | query t' i' tm =>
      have ihr := ih fun op hop => hq op (List.mem_cons_of_mem _ hop)
      have hrest : ∀ op ∈ rest, op.isQuery = true :=
        fun op hop => hq op (List.mem_cons_of_mem _ hop)
      by_cases hm : t' = t ∧ i' = i ∧ tm - ts < 2000
      · have hcond : tm - ts < 2000 ∧ t = t' ∧ i = i' := ⟨hm.2.2, hm.1.symm, hm.2.1.symm⟩
        have hp : queryMatches t i ts (.query t' i' tm) = true := by
          simp [queryMatches, hm.1, hm.2.1, hm.2.2]
        simp only [runTracker, isLocalChange, if_pos hcond, firstMatchPattern, hp, if_pos rfl,
          runTracker_none_of_queries rest hrest]
        simp
      · have hcond : ¬(tm - ts < 2000 ∧ t = t' ∧ i = i') := by
          rintro ⟨h1, h2, h3⟩; exact hm ⟨h2.symm, h3.symm, h1⟩
        have hp : queryMatches t i ts (.query t' i' tm) = false := by
          simp only [queryMatches, decide_eq_false_iff_not]
          rintro ⟨h1, h2, h3⟩; exact hm ⟨h1, h2, h3⟩
        simp only [runTracker, isLocalChange, if_neg hcond, firstMatchPattern, hp]
        simp [ihr]

/-- The first-match pattern holds `true` exactly once when some query
matches, and never otherwise. -/
theorem firstMatchPattern_count (p : TrackerOp → Bool) (qs : List TrackerOp) :
    (firstMatchPattern p qs).count true = (if qs.any p then 1 else 0) := by
  induction qs with
  | nil => simp [firstMatchPattern]
  | cons q rest ih =>
    by_cases hp : p q
    · simp [firstMatchPattern, hp, List.count_cons, List.count_replicate]
    · simp [firstMatchPattern, hp, List.count_cons, ih]

/-- Claim C2 counterexample: `markLocalChange("pages","A")` at time 0 is
overwritten by `markLocalChange("blocks","B")` at time 10, so the matching
event for `("pages","A")` arriving at time 100 — well within 2000ms of its
mark — yields `false`, not the claimed exactly-one `true` per mark. -/
theorem tracker_overwrite_cex :
    (runTracker [TrackerOp.mark "pages" "A" 0, TrackerOp.mark "blocks" "B" 10,
        TrackerOp.query "pages" "A" 100] none).2 = [false] ∧
    (100 : Int) - 0 < 2000 := by
  constructor
  · decide
  · decide

/-- Claim C2 (amended): only the *most recent* `markLocalChange(t, i)` call is
live — the tracker is single-slot, a newer mark unconditionally overwrites an
older one.  After the last mark, `isLocalChange` returns true for exactly the
first matching query (same table, same id, within 2000ms of that mark) and
false for every other query (mismatched, late, or after the marker was
consumed); in particular the number of `true` results after the last mark is
one if a matching event arrives and zero otherwise. -/
theorem tracker_latestMark_spec (pre qs : List TrackerOp) (t i : String) (ts : Int)
    (st0 : TrackerState) (hq : ∀ op ∈ qs, op.isQuery = true) :
    (runTracker (pre ++ TrackerOp.mark t i ts :: qs) st0).2 =
      (runTracker (pre ++ [TrackerOp.mark t i ts]) st0).2
        ++ firstMatchPattern (queryMatches t i ts) qs ∧
    (firstMatchPattern (queryMatches t i ts) qs).count true =
      (if qs.any (queryMatches t i ts) then 1 else 0) := by
  constructor
  · have h1 : pre ++ TrackerOp.mark t i ts :: qs =
        (pre ++ [TrackerOp.mark t i ts]) ++ qs := by simp
    rw [h1, runTracker_append]
    have h2 : (runTracker (pre ++ [TrackerOp.mark t i ts]) st0).1 = some ⟨t, i, ts⟩ := by
      rw [runTracker_append]
      simp [runTracker, markLocalChange]
    rw [h2, runTracker_marker_firstMatch t i ts qs hq]
  · exact firstMatchPattern_count _ _

/-- Witness for the amended C2 at a concrete trace: mark `("pages","A")` at
time 0, then two matching queries at times 100 and 150 — the first yields
true, the second false. -/
theorem tracker_latestMark_witness :
    (∀ op ∈ [TrackerOp.query "pages" "A" 100, TrackerOp.query "pages" "A" 150],
      op.isQuery = true) ∧
    ((runTracker ([] ++ TrackerOp.mark "pages" "A" 0 ::
        [TrackerOp.query "pages" "A" 100, TrackerOp.query "pages" "A" 150]) none).2 =
      (runTracker ([] ++ [TrackerOp.mark "pages" "A" 0]) none).2
        ++ firstMatchPattern (queryMatches "pages" "A" 0)
            [TrackerOp.query "pages" "A" 100, TrackerOp.query "pages" "A" 150] ∧
    (firstMatchPattern (queryMatches "pages" "A" 0)
        [TrackerOp.query "pages" "A" 100, TrackerOp.query "pages" "A" 150]).count true =
      (if [TrackerOp.query "pages" "A" 100, TrackerOp.query "pages" "A" 150].any
          (queryMatches "pages" "A" 0) then 1 else 0)) :=
  ⟨by decide,
    tracker_latestMark_spec [] [TrackerOp.query "pages" "A" 100,
      TrackerOp.query "pages" "A" 150] "pages" "A" 0 none (by decide)⟩

/-! ## Theorems about the optimistic mutation engine -/

/-- Claim C1 counterexample: `createPage` (with an authenticated user, the
preconditions holding, and both remote inserts succeeding) issues its remote
page insert *before* the local state update — the first remote write sits at
trace index 0 and the `setPages` at index 4 — so the local-apply-first
ordering the claim asserts for every mutator is violated. -/
theorem createPage_remoteFirst_cex :
    appliesLocalBeforeRemote (createPage (some "u") [] "p1" "nb" 0 true true).1 = false := by
  decide

/-- Claim C1 (amended): `updatePageTitle`, `updatePageIcon`, `updateBlock`,
`deleteBlock` and `reorderBlocks` apply the change to local in-memory state
synchronously before issuing the remote persistence write; `createPage`,
`deletePage` and `addBlock` issue the remote write first and update local
state only after it succeeds. -/
theorem mutatorOrdering_spec :
    (∀ (u : String) (pages : List Page) (pid title : String) (now : Int) (ok : Bool),
      appliesLocalBeforeRemote (updatePageTitle (some u) pages pid title now ok) = true) ∧
    (∀ (u : String) (pages : List Page) (pid icon : String) (now : Int) (ok : Bool),
      appliesLocalBeforeRemote (updatePageIcon (some u) pages pid icon now ok) = true) ∧
    (∀ (u : String) (pages : List Page) (pid bid : String) (upd : BlockUpdates) (now : Int)
      (ok : Bool),
      appliesLocalBeforeRemote (updateBlock (some u) pages pid bid upd now ok) = true) ∧
    (∀ (u : String) (pages : List Page) (pid bid : String) (now : Int) (ok : Bool),
      appliesLocalBeforeRemote (deleteBlock (some u) pages pid bid now ok) = true) ∧
    (∀ (u : String) (pages : List Page) (pid : String) (order : List Block) (now : Int)
      (ok : Bool),
      appliesLocalBeforeRemote (reorderBlocks (some u) pages pid order now ok) = true) ∧
    (∀ (u : String) (pages : List Page) (npid nbid : String) (t : Int) (pOk bOk : Bool),
      remoteIssuedBeforeLocalApply (createPage (some u) pages npid nbid t pOk bOk).1 = true) ∧
    (∀ (u : String) (pages : List Page) (act : Option String) (pid : String) (ok : Bool),
      remoteIssuedBeforeLocalApply (deletePage (some u) pages act pid ok) = true) ∧
    (∀ (u : String) (pages : List Page) (pid : String) (ty : BlockType)
      (after : Option String) (nid : String) (now : Int) (ok : Bool) (page : Page),
      pages.find? (fun p => p.id = pid) = some page →
      remoteIssuedBeforeLocalApply (addBlock (some u) pages pid ty after nid now ok).1 = true) := by
  refine ⟨?_, ?_, ?_, ?_, ?_, ?_, ?_, ?_⟩
  · intro u pages pid title now ok
    cases ok <;> rfl
  · intro u pages pid icon now ok
    cases ok <;> rfl
  · intro u pages pid bid upd now ok
    cases ok <;> rfl
  · intro u pages pid bid now ok
    cases ok <;> rfl
  · intro u pages pid order now ok
    cases ok <;> rfl
  · intro u pages npid nbid t pOk bOk
    cases pOk <;> cases bOk <;> rfl
  · intro u pages act pid ok
    cases ok with
    | true =>
      simp only [deletePage, remoteIssuedBeforeLocalApply]
      rfl
    | false => rfl
  · intro u pages pid ty after nid now ok page hfind
    simp only [addBlock, hfind]
    cases ok <;> rfl

/-- Witness for the amended C1: the `addBlock` clause at a concrete
workspace (user "u", page "p1" present), discharging the page-found
hypothesis. -/
theorem mutatorOrdering_witness :
    samplePages.find? (fun p => p.id = "p1") = some samplePage1 ∧
    remoteIssuedBeforeLocalApply
      (addBlock (some "u") samplePages "p1" .text none "nb" 5 true).1 = true :=
  ⟨by decide,
    mutatorOrdering_spec.2.2.2.2.2.2.2 "u" samplePages "p1" .text none "nb" 5 true
      samplePage1 (by decide)⟩

/-- Claim C4 counterexample: when `updateBlock`'s remote persistence step
fails, the mutator issues the remote write but surfaces *no* user-visible
notification (the failure is only logged), contradicting the claim that every
failing mutator surfaces one. -/
theorem updateBlock_noToast_cex :
    toastsOf (updateBlock (some "u") samplePages "p1" "b1" sampleUpdates 5 false) = [] ∧
    remotesOf (updateBlock (some "u") samplePages "p1" "b1" sampleUpdates 5 false) =
      [RemoteOp.updateBlockRow "b1" "u" (some "A") none none 5] := by
  constructor <;> decide

/-- Claim C4 (amended): on remote persistence failure, `createPage`,
`deletePage`, `addBlock`, `deleteBlock` and `reorderBlocks` surface a
user-visible toast, while `updatePageTitle`, `updatePageIcon` and
`updateBlock` only log and surface nothing; no mutator rolls local state
back — the optimistic-first mutators leave local state exactly as the
optimistic apply left it (identical to the success run), and the
remote-first mutators leave local state untouched on failure. -/
theorem remoteFailure_spec :
    (∀ (u : String) (pages : List Page) (npid nbid : String) (t : Int),
      toastsOf (createPage (some u) pages npid nbid t false false).1 = ["Error creating page"] ∧
      toastsOf (createPage (some u) pages npid nbid t true false).1 = ["Error creating page"]) ∧
    (∀ (u : String) (pages : List Page) (act : Option String) (pid : String),
      toastsOf (deletePage (some u) pages act pid false) = ["Error deleting page"]) ∧
    (∀ (u : String) (pages : List Page) (pid : String) (ty : BlockType)
      (after : Option String) (nid : String) (now : Int) (page : Page),
      pages.find? (fun p => p.id = pid) = some page →
      toastsOf (addBlock (some u) pages pid ty after nid now false).1 = ["Error adding block"]) ∧
    (∀ (u : String) (pages : List Page) (pid bid : String) (now : Int),
      toastsOf (deleteBlock (some u) pages pid bid now false) = ["Error deleting block"]) ∧
    (∀ (u : String) (pages : List Page) (pid : String) (order : List Block) (now : Int),
      toastsOf (reorderBlocks (some u) pages pid order now false) = ["Error reordering blocks"]) ∧
    (∀ (u : String) (pages : List Page) (pid title : String) (now : Int),
      toastsOf (updatePageTitle (some u) pages pid title now false) = []) ∧
    (∀ (u : String) (pages : List Page) (pid icon : String) (now : Int),
      toastsOf (updatePageIcon (some u) pages pid icon now false) = []) ∧
    (∀ (u : String) (pages : List Page) (pid bid : String) (upd : BlockUpdates) (now : Int),
      toastsOf (updateBlock (some u) pages pid bid upd now false) = []) ∧
    (∀ (u : String) (pages : List Page) (act : Option String) (pid title : String) (now : Int),
      localStateAfter (updatePageTitle (some u) pages pid title now false) pages act =
        localStateAfter (updatePageTitle (some u) pages pid title now true) pages act) ∧
    (∀ (u : String) (pages : List Page) (act : Option String) (pid icon : String) (now : Int),
      localStateAfter (updatePageIcon (some u) pages pid icon now false) pages act =
        localStateAfter (updatePageIcon (some u) pages pid icon now true) pages act) ∧
    (∀ (u : String) (pages : List Page) (act : Option String) (pid bid : String)
      (upd : BlockUpdates) (now : Int),
      localStateAfter (updateBlock (some u) pages pid bid upd now false) pages act =
        localStateAfter (updateBlock (some u) pages pid bid upd now true) pages act) ∧
    (∀ (u : String) (pages : List Page) (act : Option String) (pid bid : String) (now : Int),
      localStateAfter (deleteBlock (some u) pages pid bid now false) pages act =
        localStateAfter (deleteBlock (some u) pages pid bid now true) pages act) ∧
    (∀ (u : String) (pages : List Page) (act : Option String) (pid : String)
      (order : List Block) (now : Int),
      localStateAfter (reorderBlocks (some u) pages pid order now false) pages act =
        localStateAfter (reorderBlocks (some u) pages pid order now true) pages act) ∧
    (∀ (u : String) (pages : List Page) (act : Option String) (npid nbid : String) (t : Int),
      localStateAfter (createPage (some u) pages npid nbid t false false).1 pages act =
        (pages, act) ∧
      localStateAfter (createPage (some u) pages npid nbid t true false).1 pages act =
        (pages, act)) ∧
    (∀ (u : String) (pages : List Page) (act act2 : Option String) (pid : String),
      localStateAfter (deletePage (some u) pages act2 pid false) pages act = (pages, act)) ∧
    (∀ (u : String) (pages : List Page) (act : Option String) (pid : String) (ty : BlockType)
      (after : Option String) (nid : String) (now : Int),
      localStateAfter (addBlock (some u) pages pid ty after nid now false).1 pages act =
        (pages, act)) := by
  refine ⟨fun _ _ _ _ _ => ⟨rfl, rfl⟩, fun _ _ _ _ => rfl, ?_, fun _ _ _ _ _ => rfl,
    fun _ _ _ _ _ => rfl, fun _ _ _ _ _ => rfl, fun _ _ _ _ _ => rfl, fun _ _ _ _ _ _ => rfl,
    fun _ _ _ _ _ _ => rfl, fun _ _ _ _ _ _ => rfl, fun _ _ _ _ _ _ _ => rfl,
    fun _ _ _ _ _ _ => rfl, fun _ _ _ _ _ _ => rfl, fun _ _ _ _ _ _ => ⟨rfl, rfl⟩,
    fun _ _ _ _ _ => rfl, ?_⟩
  · intro u pages pid ty after nid now page hfind
    simp only [addBlock, hfind]
    rfl
  · intro u pages act pid ty after nid now
    cases hfind : pages.find? (fun p => p.id = pid) with
    | none => simp only [addBlock, hfind]; rfl
    | some page => simp only [addBlock, hfind]; rfl

/-- Witness for the amended C4: the `addBlock` failure clause at a concrete
workspace, discharging the page-found hypothesis. -/
theorem remoteFailure_witness :
    samplePages.find? (fun p => p.id = "p1") = some samplePage1 ∧
    toastsOf (addBlock (some "u") samplePages "p1" .text none "nb" 5 false).1 =
      ["Error adding block"] :=
  ⟨by decide,
    remoteFailure_spec.2.2.1 "u" samplePages "p1" .text none "nb" 5 samplePage1 (by decide)⟩

/-- Claim C5 counterexample: `updateBlock` called with an authenticated user
on an empty workspace — the target page and block do not exist in local
state — still issues its remote write, where the claim requires a silent
no-op with no remote call. -/
theorem updateBlock_missingTarget_cex :
    remotesOf (updateBlock (some "u") [] "p1" "b1" sampleUpdates 5 true) =
      [RemoteOp.updateBlockRow "b1" "u" (some "A") none none 5] := by
  decide

/-- Claim C5 (amended): every mutator is a silent no-op (no effect at all,
null result) when no user is authenticated; the target-existence precondition
is validated only by `addBlock`, which silently returns null when the page is
not found locally; the other targeted mutators — `updateBlock`,
`deleteBlock`, `updatePageTitle`, `updatePageIcon` and `reorderBlocks` —
perform no existence check and issue their remote write for any `pages`
value, in particular when the target page/block is absent from local
state. -/
theorem precondition_spec :
    (∀ (pages : List Page) (npid nbid : String) (t : Int) (pOk bOk : Bool),
      createPage none pages npid nbid t pOk bOk = ([], none)) ∧
    (∀ (pages : List Page) (act : Option String) (pid : String) (ok : Bool),
      deletePage none pages act pid ok = []) ∧
    (∀ (pages : List Page) (pid title : String) (now : Int) (ok : Bool),
      updatePageTitle none pages pid title now ok = []) ∧
    (∀ (pages : List Page) (pid icon : String) (now : Int) (ok : Bool),
      updatePageIcon none pages pid icon now ok = []) ∧
    (∀ (pages : List Page) (pid : String) (ty : BlockType) (after : Option String)
      (nid : String) (now : Int) (ok : Bool),
      addBlock none pages pid ty after nid now ok = ([], none)) ∧
    (∀ (pages : List Page) (pid bid : String) (upd : BlockUpdates) (now : Int) (ok : Bool),
      updateBlock none pages pid bid upd now ok = []) ∧
    (∀ (pages : List Page) (pid bid : String) (now : Int) (ok : Bool),
      deleteBlock none pages pid bid now ok = []) ∧
    (∀ (pages : List Page) (pid : String) (order : List Block) (now : Int) (ok : Bool),
      reorderBlocks none pages pid order now ok = []) ∧
    (∀ (u : String) (pages : List Page) (pid : String) (ty : BlockType)
      (after : Option String) (nid : String) (now : Int) (ok : Bool),
      pages.find? (fun p => p.id = pid) = none →
      addBlock (some u) pages pid ty after nid now ok = ([], none)) ∧
    (∀ (u : String) (pages : List Page) (pid bid : String) (upd : BlockUpdates) (now : Int)
      (ok : Bool),
      remotesOf (updateBlock (some u) pages pid bid upd now ok) =
        [RemoteOp.updateBlockRow bid u upd.content upd.type upd.checked now]) ∧
    (∀ (u : String) (pages : List Page) (pid bid : String) (now : Int) (ok : Bool),
      remotesOf (deleteBlock (some u) pages pid bid now ok) =
        [RemoteOp.deleteBlockRow bid u]) ∧
    (∀ (u : String) (pages : List Page) (pid title : String) (now : Int) (ok : Bool),
      remotesOf (updatePageTitle (some u) pages pid title now ok) =
        [RemoteOp.updatePage pid u (some title) none now]) ∧
    (∀ (u : String) (pages : List Page) (pid icon : String) (now : Int) (ok : Bool),
      remotesOf (updatePageIcon (some u) pages pid icon now ok) =
        [RemoteOp.updatePage pid u none (some icon) now]) ∧
    (∀ (u : String) (pages : List Page) (pid : String) (order : List Block) (now : Int)
      (ok : Bool),
      ∃ rows : List UpsertRow,
        remotesOf (reorderBlocks (some u) pages pid order now ok) =
          [RemoteOp.upsertBlocks rows] ∧
        rows.length = order.length) := by
  refine ⟨fun _ _ _ _ _ _ => rfl, fun _ _ _ _ => rfl, fun _ _ _ _ _ => rfl,
    fun _ _ _ _ _ => rfl, fun _ _ _ _ _ _ _ => rfl, fun _ _ _ _ _ _ => rfl,
    fun _ _ _ _ _ => rfl, fun _ _ _ _ _ => rfl, ?_, ?_, ?_, ?_, ?_, ?_⟩
  · intro u pages pid ty after nid now ok hfind
    simp only [addBlock, hfind]
  · intro u pages pid bid upd now ok
    cases ok <;> rfl
  · intro u pages pid bid now ok
    cases ok <;> rfl
  · intro u pages pid title now ok
    cases ok <;> rfl
  · intro u pages pid icon now ok
    cases ok <;> rfl
  · intro u pages pid order now ok
    refine ⟨order.mapIdx fun index block =>
      ({ id := block.id, position := index, pageId := pid, userId := u
         type := block.type, content := block.content, checked := block.checked
         updatedAt := now } : UpsertRow), ?_, List.length_mapIdx⟩
    cases ok <;> rfl

/-- Witness for the amended C5: `addBlock` on a workspace that does not
contain the target page is a silent no-op, discharging the page-not-found
hypothesis at a concrete input. -/
theorem precondition_witness :
    samplePages.find? (fun p => p.id = "p9") = none ∧
    addBlock (some "u") samplePages "p9" .text none "nb" 5 true = ([], none) :=
  ⟨by decide,
    precondition_spec.2.2.2.2.2.2.2.2.1 "u" samplePages "p9" .text none "nb" 5 true (by decide)⟩

/-- A successful `findIdx?` returns an index inside the list. -/
theorem findIdx?_lt_length {α : Type} (p : α → Bool) (l : List α) (i : Nat)
    (h : l.findIdx? p = some i) : i < l.length := by
  induction l generalizing i with
  | nil => simp [List.findIdx?] at h
  | cons x xs ih =>
    rw [List.findIdx?_cons] at h
    by_cases hp : p x
    · simp [hp] at h
      simp [← h]
    · simp [hp] at h
      obtain ⟨j, hj, rfl⟩ := h
      have := ih _ hj
      simp only [List.length_cons]
      omega

/-- In-bounds `insertIdx` is take-prefix, new element, drop-suffix. -/
theorem insertIdx_eq_take_cons_drop {α : Type} (l : List α) (n : Nat) (a : α)
    (h : n ≤ l.length) : l.insertIdx n a = l.take n ++ a :: l.drop n := by
  induction l generalizing n with
  | nil =>
    have hn : n = 0 := by simpa using h
    subst hn
    rfl
  | cons x xs ih =>
    cases n with
    | zero => rfl
    | succ m =>
      simp only [List.insertIdx_succ_cons, List.take_succ_cons, List.drop_succ_cons,
        List.cons_append, List.cons.injEq, true_and]
      exact ih m (by simpa using h)

/-- Claim C7: `reorderBlocks(pageId, newOrder)` issues exactly one batch
upsert whose rows cover `newOrder` positionally — the row for the block at
index `k` of the new order carries `position = k` (every block's position is
rewritten, not just the moved one) — and locally replaces the target page's
block sequence with `newOrder`, leaving every other page unchanged. -/
theorem reorderBlocks_spec (u : String) (pages : List Page) (pageId : String)
    (order : List Block) (now : Int) (ok : Bool) :
    (∃ rows : List UpsertRow,
      remotesOf (reorderBlocks (some u) pages pageId order now ok) =
        [RemoteOp.upsertBlocks rows] ∧
      rows.length = order.length ∧
      ∀ (k : Nat) (hk : k < order.length) (hk2 : k < rows.length),
        (rows.get ⟨k, hk2⟩).id = (order.get ⟨k, hk⟩).id ∧
        (rows.get ⟨k, hk2⟩).position = k ∧
        (rows.get ⟨k, hk2⟩).pageId = pageId) ∧
    (∀ (act : Option String) (k : Nat) (hk : k < pages.length)
      (hk2 : k <
        ((localStateAfter (reorderBlocks (some u) pages pageId order now ok) pages act).1).length),
      ((localStateAfter (reorderBlocks (some u) pages pageId order now ok) pages act).1.get
          ⟨k, hk2⟩) =
        (if (pages.get ⟨k, hk⟩).id = pageId
          then { pages.get ⟨k, hk⟩ with blocks := order, updatedAt := now }
          else pages.get ⟨k, hk⟩)) := by
  constructor
  · refine ⟨order.mapIdx fun index block =>
      ({ id := block.id, position := index, pageId := pageId, userId := u
         type := block.type, content := block.content, checked := block.checked
         updatedAt := now } : UpsertRow), ?_, ?_, ?_⟩
    · cases ok <;> rfl
    · exact List.length_mapIdx
    · intro k hk hk2
      rw [List.get_mapIdx order _ k hk]
      exact ⟨rfl, rfl, rfl⟩
  · intro act k hk hk2
    have hX : (localStateAfter (reorderBlocks (some u) pages pageId order now ok) pages act).1 =
        pages.map fun p =>
          if p.id = pageId then { p with blocks := order, updatedAt := now } else p := by
      cases ok <;> rfl
    revert hk2
    rw [hX]
    intro hk2
    simp only [List.get_eq_getElem, List.getElem_map]

/-- Witness for C7: the spec scenario — page `[b1, b2, b3]` reordered to
`[b3, b1, b2]` — plus the concrete evaluation showing persisted positions
`b3 → 0, b1 → 1, b2 → 2` and the local block sequence becoming the new
order. -/
theorem reorderBlocks_witness :
    ((∃ rows : List UpsertRow,
      remotesOf (reorderBlocks (some "u") samplePages "p1"
          [sampleBlock3, sampleBlock1, sampleBlock2] 5 true) =
        [RemoteOp.upsertBlocks rows] ∧
      rows.length = [sampleBlock3, sampleBlock1, sampleBlock2].length ∧
      ∀ (k : Nat) (hk : k < [sampleBlock3, sampleBlock1, sampleBlock2].length)
        (hk2 : k < rows.length),
        (rows.get ⟨k, hk2⟩).id = ([sampleBlock3, sampleBlock1, sampleBlock2].get ⟨k, hk⟩).id ∧
        (rows.get ⟨k, hk2⟩).position = k ∧
        (rows.get ⟨k, hk2⟩).pageId = "p1") ∧
    (∀ (act : Option String) (k : Nat) (hk : k < samplePages.length)
      (hk2 : k < ((localStateAfter (reorderBlocks (some "u") samplePages "p1"
          [sampleBlock3, sampleBlock1, sampleBlock2] 5 true) samplePages act).1).length),
      ((localStateAfter (reorderBlocks (some "u") samplePages "p1"
          [sampleBlock3, sampleBlock1, sampleBlock2] 5 true) samplePages act).1.get ⟨k, hk2⟩) =
        (if (samplePages.get ⟨k, hk⟩).id = "p1"
          then { samplePages.get ⟨k, hk⟩ with
                  blocks := [sampleBlock3, sampleBlock1, sampleBlock2], updatedAt := 5 }
          else samplePages.get ⟨k, hk⟩))) ∧
    remotesOf (reorderBlocks (some "u") samplePages "p1"
        [sampleBlock3, sampleBlock1, sampleBlock2] 5 true) =
      [RemoteOp.upsertBlocks
        [⟨"b3", 0, "p1", "u", .text, "three", none, 5⟩,
          ⟨"b1", 1, "p1", "u", .text, "one", none, 5⟩,
          ⟨"b2", 2, "p1", "u", .text, "two", none, 5⟩]] :=
  ⟨reorderBlocks_spec "u" samplePages "p1" [sampleBlock3, sampleBlock1, sampleBlock2] 5 true,
    by decide⟩

/-- Claim C8 counterexample: `addBlock` with an `afterBlockId` that is *not*
among the page's blocks.  The claim says the new block is appended at the end
of the local sequence; the code instead splices at `findIndex(...) + 1 = 0`,
prepending it — while persisting position 1 (the end).  Page `p1` has the
single block `b1`; the new block `nb` ends up locally *before* `b1`. -/
theorem addBlock_afterNotFound_cex :
    (localStateAfter (addBlock (some "u") [⟨"p1", "t", "i", [⟨"b1", .text, "c", none⟩], 0, 0⟩]
        "p1" .text (some "zz") "nb" 5 true).1
      [⟨"p1", "t", "i", [⟨"b1", .text, "c", none⟩], 0, 0⟩] none).1 =
      [⟨"p1", "t", "i", [⟨"nb", .text, "", none⟩, ⟨"b1", .text, "c", none⟩], 0, 5⟩] ∧
    (localStateAfter (addBlock (some "u") [⟨"p1", "t", "i", [⟨"b1", .text, "c", none⟩], 0, 0⟩]
        "p1" .text (some "zz") "nb" 5 true).1
      [⟨"p1", "t", "i", [⟨"b1", .text, "c", none⟩], 0, 0⟩] none).1 ≠
      [⟨"p1", "t", "i", [⟨"b1", .text, "c", none⟩, ⟨"nb", .text, "", none⟩], 0, 5⟩] ∧
    remotesOf (addBlock (some "u") [⟨"p1", "t", "i", [⟨"b1", .text, "c", none⟩], 0, 0⟩]
        "p1" .text (some "zz") "nb" 5 true).1 =
      [RemoteOp.insertBlock "p1" "u" .text "" none 1] := by
  refine ⟨by decide, by decide, by decide⟩

/-- Claim C8 (amended): on a found page, `addBlock` persists the new block at
position sibling-index + 1 when `afterBlockId` is found, and at the block
count when `afterBlockId` is absent *or not found*; locally the block is
spliced in immediately after the found sibling (blocks after the insertion
point shift up by one, with no index collisions), appended at the end when
`afterBlockId` is absent — but *prepended at index 0* when `afterBlockId` is
given and not found. -/
theorem addBlock_insertion_spec (u : String) (pages : List Page) (pid : String)
    (ty : BlockType) (after : Option String) (nid : String) (now : Int) (page : Page)
    (hfind : pages.find? (fun p => p.id = pid) = some page) :
    (after = none →
      remotesOf (addBlock (some u) pages pid ty after nid now true).1 =
        [RemoteOp.insertBlock pid u ty "" (if ty = .checklist then some false else none)
          page.blocks.length]) ∧
    (∀ (aid : String) (idx : Nat), after = some aid →
      page.blocks.findIdx? (fun b => b.id = aid) = some idx →
      remotesOf (addBlock (some u) pages pid ty after nid now true).1 =
        [RemoteOp.insertBlock pid u ty "" (if ty = .checklist then some false else none)
          (idx + 1)]) ∧
    (∀ aid : String, after = some aid →
      page.blocks.findIdx? (fun b => b.id = aid) = none →
      remotesOf (addBlock (some u) pages pid ty after nid now true).1 =
        [RemoteOp.insertBlock pid u ty "" (if ty = .checklist then some false else none)
          page.blocks.length]) ∧
    (addBlock (some u) pages pid ty after nid now true).2 =
      some ⟨nid, ty, "", if ty = .checklist then some false else none⟩ ∧
    (∀ (act : Option String) (k : Nat),
      ((localStateAfter (addBlock (some u) pages pid ty after nid now true).1
          pages act).1.get? k) =
        (pages.get? k).map (fun p =>
          let newBlock : Block := ⟨nid, ty, "", if ty = .checklist then some false else none⟩
          if p.id = pid then
            { p with
              blocks :=
                match after with
                | none => p.blocks ++ [newBlock]
                | some aid =>
                  match p.blocks.findIdx? (fun b => b.id = aid) with
                  | some idx => p.blocks.take (idx + 1) ++ newBlock :: p.blocks.drop (idx + 1)
                  | none => newBlock :: p.blocks
              updatedAt := now }
          else p)) := by
  refine ⟨?_, ?_, ?_, ?_, ?_⟩
  · rintro rfl
    simp only [addBlock, hfind]
    rfl
  · rintro aid idx rfl hidx
    simp only [addBlock, hfind, hidx]
    rfl
  · rintro aid rfl hidx
    simp only [addBlock, hfind, hidx]
    rfl
  · simp only [addBlock, hfind]
    rfl
  · intro act k
    have hX : (localStateAfter (addBlock (some u) pages pid ty after nid now true).1
        pages act).1 =
        pages.map fun p =>
          if p.id = pid then
            match after with
            | none =>
              { p with
                blocks := p.blocks ++ [⟨nid, ty, "",
                  if ty = .checklist then some false else none⟩]
                updatedAt := now }
            | some aid =>
              let spliceIdx :=
                match p.blocks.findIdx? (fun b => b.id = aid) with
                | some idx => idx + 1
                | none => 0
              { p with
                blocks := p.blocks.insertIdx spliceIdx
                  ⟨nid, ty, "", if ty = .checklist then some false else none⟩
                updatedAt := now }
          else p := by
      simp only [addBlock, hfind]
      rfl
    rw [hX, List.get?_map]
    cases hpk : pages.get? k with
    | none => rfl
    | some p =>
      simp only [Option.map_some']
      by_cases hid : p.id = pid
      · simp only [if_pos hid]
        cases after with
        | none => rfl
        | some aid =>
          cases hfd : p.blocks.findIdx? (fun b => b.id = aid) with
          | none =>
            simp only [hfd]
            rfl
          | some idx =>
            have hle : idx + 1 ≤ p.blocks.length := findIdx?_lt_length _ _ _ hfd
            simp only [hfd, insertIdx_eq_take_cons_drop _ _ _ hle]
      · simp only [if_neg hid]

/-- Witness for the amended C8: adding a text block after `b2` on the sample
page `[b1, b2, b3]` persists position 2 (= index of `b2` plus one). -/
theorem addBlock_insertion_witness :
    samplePages.find? (fun p => p.id = "p1") = some samplePage1 ∧
    remotesOf (addBlock (some "u") samplePages "p1" .text (some "b2") "nb" 5 true).1 =
      [RemoteOp.insertBlock "p1" "u" .text "" none 2] :=
  ⟨by decide,
    (addBlock_insertion_spec "u" samplePages "p1" .text (some "b2") "nb" 5 samplePage1
      (by decide)).2.1 "b2" 1 rfl (by decide)⟩

/-! ## Theorems about remote change reconciliation -/

/-- Claim C10: when a page INSERT event arrives from the change feed for a
page id that is not present in the local collection, the reconciliation
handler returns the previous `Page[]` unchanged — the remotely created page
is never added to local state by the feed path. -/
theorem handlePageChange_insert_spec (pp : PageDelta) (prev : List Page)
    (_h : ∀ p ∈ prev, p.id ≠ pp.id) :
    handlePageChange .INSERT pp prev = prev := by
  simp [handlePageChange]

/-- Witness for C10: an INSERT for the absent page id `p9` leaves the sample
workspace untouched. -/
theorem handlePageChange_insert_witness :
    (∀ p ∈ samplePages, p.id ≠ sampleDelta.id) ∧
    handlePageChange .INSERT sampleDelta samplePages = samplePages :=
  ⟨by decide, handlePageChange_insert_spec sampleDelta samplePages (by decide)⟩

/-! ## Theorems about the undo/redo history engine -/

/-- Claim C6 counterexample: from the history `[s0, s1, s2]` (built by two
pushes), the sequence `undo(); undo(); pushState(7)` leaves `canRedo` *true*:
the two undos set the suppression flag, so the following `pushState` call is
consumed as a replay and never truncates the redoable states, contradicting
the claimed branch discard. -/
theorem undoRedo_pushSuppressed_cex :
    canRedo (runHistory 50
      [.push 1 1, .push 2 2, .undoCall, .undoCall, .push 7 5]
      (initUndoRedo (0 : Nat) 0)) = true := by
  decide

/-- Claim C6 (amended): after `undo(); undo()`, the first `pushState(x)` is
suppressed (it only consumes the replay flag, so `canRedo` is still true);
the *second* `pushState(y)` performs the branch discard, after which
`canRedo` is false. -/
theorem undoRedo_branchDiscard_spec {T : Type} (s0 s1 s2 x y : T) (t0 t1 t2 t3 t4 : Int) :
    canRedo (runHistory 50
      [.push s1 t1, .push s2 t2, .undoCall, .undoCall, .push x t3]
      (initUndoRedo s0 t0)) = true ∧
    canRedo (runHistory 50
      [.push s1 t1, .push s2 t2, .undoCall, .undoCall, .push x t3, .push y t4]
      (initUndoRedo s0 t0)) = false :=
  ⟨rfl, rfl⟩

/-- `pushState` preserves the history invariant (capacity at least one). -/
theorem pushState_inv {T : Type} (cap : Nat) (hcap : 1 ≤ cap) (x : T) (now : Int)
    (st : UndoRedoState T) (h : HistInv cap st) : HistInv cap (pushState cap x now st) := by
  obtain ⟨h1, h2, h3⟩ := h
  unfold pushState
  by_cases hf : st.isUndoRedo = true
  · rw [if_pos hf]
    exact ⟨h1, h2, h3⟩
  · rw [if_neg hf]
    have hlen : (st.history.take (st.currentIndex + 1) ++ [(⟨x, now⟩ : HistoryEntry T)]).length =
        st.currentIndex + 2 := by
      simp [List.length_take]
      omega
    simp only [hlen]
    by_cases hbig : cap < st.currentIndex + 2
    · rw [if_pos hbig]
      refine ⟨?_, ?_, ?_⟩ <;> simp only [List.length_drop, hlen] <;> omega
    · rw [if_neg hbig]
      refine ⟨?_, ?_, ?_⟩ <;> simp only [hlen] <;> omega

/-- `undo` preserves the history invariant. -/
theorem undo_inv {T : Type} (cap : Nat) (st : UndoRedoState T) (h : HistInv cap st) :
    HistInv cap (undo st).1 := by
  obtain ⟨h1, h2, h3⟩ := h
  unfold undo
  by_cases hz : st.currentIndex = 0
  · rw [if_pos hz]
    exact ⟨h1, h2, h3⟩
  · rw [if_neg hz]
    refine ⟨h1, h2, ?_⟩
    show st.currentIndex - 1 < st.history.length
    omega

/-- `redo` preserves the history invariant. -/
theorem redo_inv {T : Type} (cap : Nat) (st : UndoRedoState T) (h : HistInv cap st) :
    HistInv cap (redo st).1 := by
  obtain ⟨h1, h2, h3⟩ := h
  unfold redo
  by_cases hz : st.history.length - 1 ≤ st.currentIndex
  · rw [if_pos hz]
    exact ⟨h1, h2, h3⟩
  · rw [if_neg hz]
    refine ⟨h1, h2, ?_⟩
    show st.currentIndex + 1 < st.history.length
    omega

/-- `reset` establishes the history invariant. -/
theorem reset_inv {T : Type} (cap : Nat) (hcap : 1 ≤ cap) (x : T) (now : Int)
    (st : UndoRedoState T) : HistInv cap (reset x now st) := by
  exact ⟨by simp [reset], by simpa [reset] using hcap, by simp [reset]⟩

/-- Any run of history-engine calls preserves the invariant. -/
theorem runHistory_inv {T : Type} (cap : Nat) (hcap : 1 ≤ cap) (ops : List (HistoryOp T))
    (st : UndoRedoState T) (h : HistInv cap st) : HistInv cap (runHistory cap ops st) := by
  induction ops generalizing st with
  | nil => simpa [runHistory] using h
  | cons op rest ih =>
    cases op with
    | push x now => exact ih _ (pushState_inv cap hcap x now st h)
    | undoCall => exact ih _ (undo_inv cap st h)
    | redoCall => exact ih _ (redo_inv cap st h)
    | resetCall x now => exact ih _ (reset_inv cap hcap x now st)

/-- Claim C9: after any sequence of `pushState`, `undo`, `redo` and `reset`
calls from the initial state, the history length stays between 1 and the
configured capacity and the cursor stays inside the history; and whenever a
(non-suppressed) push would exceed capacity, the oldest entry is evicted —
the new history is the old one minus its head, with the new snapshot
appended, preserving the relative order of the surviving entries. -/
theorem history_bounded_spec {T : Type} (cap : Nat) (hcap : 1 ≤ cap) (s0 : T) (t0 : Int)
    (ops : List (HistoryOp T)) :
    HistInv cap (runHistory cap ops (initUndoRedo s0 t0)) ∧
    (∀ (st : UndoRedoState T) (x : T) (now : Int), HistInv cap st →
      st.isUndoRedo = false → cap < st.currentIndex + 2 →
      (pushState cap x now st).history = st.history.drop 1 ++ [⟨x, now⟩]) := by
  constructor
  · exact runHistory_inv cap hcap ops _ ⟨by simp [initUndoRedo], by simpa [initUndoRedo] using hcap,
      by simp [initUndoRedo]⟩
  · intro st x now h hflag hover
    obtain ⟨h1, h2, h3⟩ := h
    have hcape : st.currentIndex + 1 = cap := by omega
    have hlencap : st.history.length = cap := by omega
    have htake : st.history.take (st.currentIndex + 1) = st.history := by
      rw [hcape, ← hlencap]
      exact List.take_length st.history
    have hflag2 : ¬ st.isUndoRedo = true := by simp [hflag]
    unfold pushState
    rw [if_neg hflag2]
    simp only [htake]
    have hbig : cap < (st.history ++ [(⟨x, now⟩ : HistoryEntry T)]).length := by
      simp [hlencap]
    rw [if_pos hbig]
    exact List.drop_append_of_le_length (by omega)

/-- Witness for C9: capacity 50 and a concrete run of pushes, undos and a
redo from the initial state. -/
theorem history_bounded_witness :
    1 ≤ 50 ∧
    (HistInv 50 (runHistory 50 [.push 1 1, .push 2 2, .undoCall, .redoCall, .push 3 3]
      (initUndoRedo (0 : Nat) 0)) ∧
    (∀ (st : UndoRedoState Nat) (x : Nat) (now : Int), HistInv 50 st →
      st.isUndoRedo = false → 50 < st.currentIndex + 2 →
      (pushState 50 x now st).history = st.history.drop 1 ++ [⟨x, now⟩])) :=
  ⟨by decide, history_bounded_spec 50 (by decide) 0 0
    [.push 1 1, .push 2 2, .undoCall, .redoCall, .push 3 3]⟩

end Taskbit
